import Mathlib

/-!
# Verification of `website-to-markdown-mcp` core algorithms

Shallow embedding, in Lean 4, of the algorithmic core of the
`website-to-markdown-mcp` repository:

* the retry helper with exponential backoff (`src/unnamed/part_000`);
* the token-bucket `RateLimiter`, the `ConcurrencyLimiter` and the
  `AdaptiveRateLimiter` (`src/src/utils/rate-limiter.ts`);
* the `ContentProcessor` post-processing and analysis helpers
  (`src/unnamed/part_003`);
* the OpenAPI detection/formatting and the relevance search of the MCP
  server entry point (`src/dist/index.js`).

JavaScript `number` arithmetic is modelled with `ℚ` (exact rationals);
where the code computes `Math.floor` the embedding uses `Int.floor`.
Time (`Date.now()`) is passed explicitly as a parameter.
-/

namespace W2M

/-! ## Retry helper — `src/unnamed/part_000`

`retry(fn, options)` runs `fn` for attempts `0 .. retries`; an attempt
that fails when `attempt === retries` throws
`new RetryError(msg, attempt + 1, lastError)`; otherwise the code sleeps
`delay = Math.min(minTimeout * factor ** attempt, maxTimeout)`,
multiplied by `(Math.random() + 0.5)` when `randomize` is set, and loops.

The embedding makes the effects explicit:

* the fallible operation is `fn : ℕ → Except E A`, giving the outcome of
  its `i`-th invocation (invocations are numbered from 0);
* the random draws are `rand : ℕ → ℚ`, the value of `Math.random()`
  observed before sleeping after attempt `i` (in JS, `0 ≤ rand i < 1`);
* the result of a run is the `Except` outcome together with the number
  of invocations of `fn` performed and the list of slept delays,
  in chronological order.
-/

/-- Options accepted by `retry` (`RetryOptions`, part_000 lines 1-8).
The `onRetry` callback has no effect on the control flow and is omitted. -/
structure RetryOptions where
  retries : ℕ
  factor : ℚ
  minTimeout : ℚ
  maxTimeout : ℚ
  randomize : Bool := false

/-- The data carried by a thrown `RetryError` (part_000 lines 10-20):
the attempt count and the last underlying error. -/
structure RetryError (E : Type) where
  attempts : ℕ
  lastError : E
deriving DecidableEq, Repr

/-- The backoff delay computed at lines 50-55 of part_000 for a failed
attempt `attempt` that is followed by a further attempt:
`Math.min(minTimeout * Math.pow(factor, attempt), maxTimeout)`, then
`delay * (rand + 0.5)` when `randomize` is set. -/
def backoffDelay (o : RetryOptions) (attempt : ℕ) (rand : ℚ) : ℚ :=
  let delay := min (o.minTimeout * o.factor ^ attempt) o.maxTimeout
  if o.randomize then delay * (rand + 1/2) else delay

/-- The loop body of `retry` (part_000 lines 30-60).  `attempt` is the
current 0-based attempt index and `remaining = retries - attempt` the
number of attempts still allowed after this one; `remaining = 0` is the
`attempt === retries` case that throws the `RetryError`.
Returns (outcome, number of invocations of `fn`, slept delays). -/
def retryGo (o : RetryOptions) (fn : ℕ → Except E A) (rand : ℕ → ℚ)
    (attempt : ℕ) : ℕ → Except (RetryError E) A × ℕ × List ℚ
  | 0 =>
    match fn attempt with
    | .ok a => (.ok a, 1, [])
    | .error e => (.error ⟨attempt + 1, e⟩, 1, [])
  | remaining + 1 =>
    match fn attempt with
    | .ok a => (.ok a, 1, [])
    | .error _ =>
      let rest := retryGo o fn rand (attempt + 1) remaining
      (rest.1, rest.2.1 + 1, backoffDelay o attempt (rand attempt) :: rest.2.2)

/-- `retry` (part_000 lines 22-64): run the loop from attempt 0 with
`retries` further attempts allowed. -/
def retry (o : RetryOptions) (fn : ℕ → Except E A) (rand : ℕ → ℚ) :
    Except (RetryError E) A × ℕ × List ℚ :=
  retryGo o fn rand 0 o.retries

/-! ## Token bucket — `src/src/utils/rate-limiter.ts`, class `RateLimiter`

The class fields become a state record; `Date.now()` becomes an explicit
`now : ℚ` argument (milliseconds).  `Math.floor` is `Int.floor`. -/

/-- Mutable fields of a `RateLimiter` (rate-limiter.ts lines 2-13). -/
structure RateLimiterState where
  maxTokens : ℚ
  refillRate : ℚ
  tokens : ℚ
  lastRefill : ℚ
deriving DecidableEq, Repr

/-- `new RateLimiter(maxTokens, refillRate)` at time `now`
(rate-limiter.ts lines 8-13): the bucket starts full. -/
def RateLimiterState.new (maxTokens refillRate now : ℚ) : RateLimiterState :=
  { maxTokens := maxTokens, refillRate := refillRate,
    tokens := maxTokens, lastRefill := now }

/-- `refill()` (rate-limiter.ts lines 15-24): add
`Math.floor(elapsedSeconds * refillRate)` tokens, capped at `maxTokens`,
and only update `lastRefill` when something was added. -/
def RateLimiterState.refill (s : RateLimiterState) (now : ℚ) : RateLimiterState :=
  let timePassed := (now - s.lastRefill) / 1000
  let tokensToAdd : ℤ := ⌊timePassed * s.refillRate⌋
  if 0 < tokensToAdd then
    { s with tokens := min s.maxTokens (s.tokens + tokensToAdd), lastRefill := now }
  else s

/-- One pass through the body of `consume(tokens)` (rate-limiter.ts
lines 26-40): refill, then either take the tokens (`none` returned — no
wait) or leave the state and report the computed wait time in ms; the
code then sleeps and re-enters `consume` at a later `now`, so a full
call is a sequence of such passes. -/
def RateLimiterState.consumeStep (s : RateLimiterState) (n : ℚ) (now : ℚ) :
    RateLimiterState × Option ℚ :=
  let s' := s.refill now
  if n ≤ s'.tokens then
    ({ s' with tokens := s'.tokens - n }, none)
  else
    (s', some (((n - s'.tokens) / s'.refillRate) * 1000))

/-- `getAvailableTokens()` (rate-limiter.ts lines 42-45): a read with a
refill side effect. -/
def RateLimiterState.getAvailableTokens (s : RateLimiterState) (now : ℚ) :
    RateLimiterState × ℚ :=
  let s' := s.refill now
  (s', s'.tokens)

/-- The token-count invariant claimed by the spec:
`tokens ∈ [0, maxTokens]`. -/
def TokensInRange (s : RateLimiterState) : Prop :=
  0 ≤ s.tokens ∧ s.tokens ≤ s.maxTokens

/-! ## Adaptive limiter — `src/src/utils/rate-limiter.ts`, class
`AdaptiveRateLimiter`

`errorCount`/`successCount` are `ℚ` because `onSuccess` subtracts the
fractional `0.1`.  The literal `0.1` of the source is modelled as the
exact rational `1/10` (the IEEE double written `0.1` differs from it by
less than `3e-18`, which does not affect any comparison made here). -/

/-- Fields of `AdaptiveRateLimiter` (rate-limiter.ts lines 127-140). -/
structure AdaptiveState where
  baseRate : ℚ
  maxTokens : ℚ
  errorThreshold : ℚ
  baseLimiter : RateLimiterState
  errorCount : ℚ
  successCount : ℚ
  lastErrorTime : ℚ
  adaptationWindow : ℚ
deriving DecidableEq, Repr

/-- `new AdaptiveRateLimiter(baseRate, maxTokens, errorThreshold)` at
time `now` (rate-limiter.ts lines 134-140). -/
def AdaptiveState.new (baseRate maxTokens errorThreshold now : ℚ) : AdaptiveState :=
  { baseRate := baseRate, maxTokens := maxTokens,
    errorThreshold := errorThreshold,
    baseLimiter := RateLimiterState.new maxTokens baseRate now,
    errorCount := 0, successCount := 0, lastErrorTime := 0,
    adaptationWindow := 60000 }

/-- `adjustRate()` (rate-limiter.ts lines 160-175).  When
`errorCount >= errorThreshold` the internal limiter is rebuilt with
`newRate = baseRate * Math.min(0.1, 1 / (errorCount - errorThreshold + 1))`;
otherwise, after a quiet `adaptationWindow` with `successCount > 10`,
with `newRate = baseRate * Math.min(1, successCount / 20)`. -/
def AdaptiveState.adjustRate (s : AdaptiveState) (now : ℚ) : AdaptiveState :=
  let timeSinceLastError := now - s.lastErrorTime
  if s.errorThreshold ≤ s.errorCount then
    let slowdownFactor := min (1/10) (1 / (s.errorCount - s.errorThreshold + 1))
    let newRate := s.baseRate * slowdownFactor
    { s with baseLimiter := RateLimiterState.new s.maxTokens newRate now }
  else if s.adaptationWindow < timeSinceLastError ∧ 10 < s.successCount then
    let recoveryFactor := min 1 (s.successCount / 20)
    let newRate := s.baseRate * recoveryFactor
    { s with baseLimiter := RateLimiterState.new s.maxTokens newRate now }
  else s

/-- One pass of `AdaptiveRateLimiter.consume()` (rate-limiter.ts lines
142-147): adjust the rate, then one `consume(1)` pass of the internal
limiter. -/
def AdaptiveState.consumeStep (s : AdaptiveState) (now : ℚ) :
    AdaptiveState × Option ℚ :=
  let s' := s.adjustRate now
  let r := s'.baseLimiter.consumeStep 1 now
  ({ s' with baseLimiter := r.1 }, r.2)

/-- `onError()` (rate-limiter.ts lines 154-158). -/
def AdaptiveState.onError (s : AdaptiveState) (now : ℚ) : AdaptiveState :=
  { s with errorCount := s.errorCount + 1, lastErrorTime := now,
           successCount := max 0 (s.successCount - 1) }

/-- `onSuccess()` (rate-limiter.ts lines 149-152). -/
def AdaptiveState.onSuccess (s : AdaptiveState) : AdaptiveState :=
  { s with successCount := s.successCount + 1,
           errorCount := max 0 (s.errorCount - 1/10) }

/-! ## Concurrency limiter — `src/src/utils/rate-limiter.ts`, class
`ConcurrencyLimiter`

Under JavaScript's cooperative (single-threaded) scheduling the
limiter's behaviour is a sequence of atomic transitions: a `run(fn)`
call either starts its task at once or appends it to `pendingQueue`
(lines 58-79); a task completing runs the `finally` block — decrement
`activeCount`, then `processQueue()` shifts the queue head into
execution if a slot is free (lines 67-70, 81-88); `clearQueue()` drops
the queue (lines 98-100).

Tasks are identified by a `ℕ` id (one id per `run` call); `outcome t`
is the value (result or error) that task `t`'s function produces, and
a pair `(t, v)` in `settled` records that the promise returned by
task `t`'s `run` call was resolved/rejected with `v`.  `active` models
the set of running tasks, so `activeCount = active.length`.
`submitted` and `dequeued` are history variables recording the order
of `run` calls and the order in which waiting tasks were taken from
the queue; neither influences the dynamics. -/

/-- State of a `ConcurrencyLimiter` (rate-limiter.ts lines 52-56) plus
the `submitted`/`dequeued` history and the `settled` promise records. -/
structure CLState (A : Type) where
  maxConcurrency : ℕ
  active : List ℕ
  pending : List ℕ
  submitted : List ℕ
  dequeued : List ℕ
  settled : List (ℕ × A)

/-- Atomic transitions of the limiter: a `run` call for task `t`, the
completion of a running task `t`, or a `clearQueue()` call. -/
inductive CLEvent where
  | submit (t : ℕ)
  | finish (t : ℕ)
  | clear
deriving DecidableEq, Repr

/-- `new ConcurrencyLimiter(maxConcurrency)` (line 56). -/
def CLState.init (A : Type) (maxC : ℕ) : CLState A :=
  { maxConcurrency := maxC, active := [], pending := [],
    submitted := [], dequeued := [], settled := [] }

/-- `run(fn)` (lines 58-79): execute at once when
`activeCount < maxConcurrency` (the `execute` closure increments
`activeCount` synchronously), otherwise `pendingQueue.push(execute)`. -/
def CLState.submit (s : CLState A) (t : ℕ) : CLState A :=
  if s.active.length < s.maxConcurrency then
    { s with active := s.active ++ [t], submitted := s.submitted ++ [t] }
  else
    { s with pending := s.pending ++ [t], submitted := s.submitted ++ [t] }

/-- Completion of running task `t` (lines 62-70 and 81-88): its promise
is resolved/rejected with its own outcome, then the `finally` block
decrements `activeCount` and `processQueue()` shifts the queue head
into execution when `pendingQueue.length > 0 && activeCount <
maxConcurrency`.  Completion of a task that is not running is a no-op
(no such transition exists in the code). -/
def CLState.finishTask (outcome : ℕ → A) (s : CLState A) (t : ℕ) : CLState A :=
  if t ∈ s.active then
    let s1 : CLState A :=
      { s with active := s.active.erase t,
               settled := s.settled ++ [(t, outcome t)] }
    match s1.pending with
    | [] => s1
    | next :: rest =>
      if s1.active.length < s1.maxConcurrency then
        { s1 with pending := rest, active := s1.active ++ [next],
                  dequeued := s1.dequeued ++ [next] }
      else s1
  else s

/-- `clearQueue()` (lines 98-100): `this.pendingQueue = []`. -/
def CLState.clearQueue (s : CLState A) : CLState A :=
  { s with pending := [] }

/-- One atomic transition. -/
def clStep (outcome : ℕ → A) (s : CLState A) : CLEvent → CLState A
  | .submit t => s.submit t
  | .finish t => CLState.finishTask outcome s t
  | .clear => s.clearQueue

/-- Run a sequence of transitions. -/
def clRun (outcome : ℕ → A) (s : CLState A) (events : List CLEvent) : CLState A :=
  events.foldl (clStep outcome) s

/-- The limiter invariant: at most `maxConcurrency` active tasks; the
dequeue history followed by the still-waiting queue is an ordered
sublist of the submission history (FIFO: waiters leave the queue in
submission order); every settled promise carries its own task's
outcome. -/
def CLInv (outcome : ℕ → A) (s : CLState A) : Prop :=
  s.active.length ≤ s.maxConcurrency ∧
  (s.dequeued ++ s.pending).Sublist s.submitted ∧
  ∀ p ∈ s.settled, p.2 = outcome p.1

/-- Task `t` is out of the limiter's reach: not running, not queued,
its promise unsettled. -/
def Untouched (t : ℕ) (s : CLState A) : Prop :=
  t ∉ s.active ∧ t ∉ s.pending ∧ ∀ p ∈ s.settled, p.1 ≠ t

/-! ## Content processor — `src/unnamed/part_003`, class `ContentProcessor`

The cheerio/turndown stages (`cleanHTML` + `extractTitle` +
`extractMainContent` + the HTML→Markdown conversion, part_003 lines
125-147) operate on a DOM and are modelled as opaque string functions
collected in an `HtmlPipeline`; every theorem below quantifies over
them.  The pure string analysis helpers (`postProcessMarkdown`,
`countWords`, `calculateReadingTime`, `generateSummary`,
`detectLanguage`) are embedded concretely.  JavaScript string lengths
are UTF-16 code-unit counts; the embedding counts codepoints, which
agrees on all text without astral-plane characters.

The identical `detectLanguage` also appears in
`src/src/enhanced-fetcher.ts` lines 293-302; the single embedding
covers both copies. -/

/-- JavaScript's `\s` character class (whitespace, line terminators and
U+FEFF), as used by `.trim()`, `.split(/\s+/)` and `.replace(/\s/g)`. -/
def jsWhitespace (c : Char) : Bool :=
  c.toNat == 0x20 || c.toNat == 0x09 || c.toNat == 0x0a || c.toNat == 0x0b ||
  c.toNat == 0x0c || c.toNat == 0x0d || c.toNat == 0xa0 || c.toNat == 0x1680 ||
  (decide (0x2000 ≤ c.toNat) && decide (c.toNat ≤ 0x200a)) ||
  c.toNat == 0x2028 || c.toNat == 0x2029 || c.toNat == 0x202f ||
  c.toNat == 0x205f || c.toNat == 0x3000 || c.toNat == 0xfeff

/-- The CJK range `[一-鿿]` used by `countWords` and
`detectLanguage`. -/
def isCJK (c : Char) : Bool :=
  decide (0x4e00 ≤ c.toNat) && decide (c.toNat ≤ 0x9fff)

/-- JavaScript `String.prototype.trim`: strip `\s` from both ends. -/
def jsTrim (s : String) : String :=
  ⟨((s.data.dropWhile jsWhitespace).reverse.dropWhile jsWhitespace).reverse⟩

/-- Number of maximal runs of non-`\s` characters: the length of
`str.split(/\s+/).filter(w => w.length > 0)`. -/
def tokenCount (l : List Char) : ℕ :=
  (l.foldl
    (fun (acc : ℕ × Bool) c =>
      if jsWhitespace c then (acc.1, false)
      else (if acc.2 then acc.1 else acc.1 + 1, true))
    (0, false)).1

/-- `countWords` (part_003 lines 405-414): CJK characters counted one
by one, plus whitespace-delimited tokens of the text with the CJK
characters removed. -/
def countWords (text : String) : ℕ :=
  let chineseChars := (text.data.filter isCJK).length
  let englishWords := tokenCount (text.data.filter (fun c => !(isCJK c)))
  chineseChars + englishWords

/-- `calculateReadingTime` (part_003 lines 416-420):
`Math.ceil(wordCount / 225)`, written over `ℕ`. -/
def calculateReadingTime (wordCount : ℕ) : ℕ :=
  (wordCount + 224) / 225

/-- The sentence-accumulation loop of `generateSummary` (part_003 lines
427-431): append trimmed sentences (with a `。` suffix) until the next
untrimmed sentence would push the accumulated length past `maxLength`. -/
def summaryLoop (maxLength : ℕ) : List String → String → String
  | [], acc => acc
  | sentence :: rest, acc =>
    if maxLength < acc.length + sentence.length then acc
    else summaryLoop maxLength rest (acc ++ jsTrim sentence ++ "。")

/-- `generateSummary` (part_003 lines 422-434): split on sentence
enders, drop fragments of trimmed length ≤ 10, accumulate, and fall
back to the truncated first sentence. -/
def generateSummary (text : String) (maxLength : ℕ := 200) : String :=
  let sentences := (text.split (fun c => c ∈ ['.', '!', '?', '。', '！', '？'])).filter
    (fun s => 10 < (jsTrim s).length)
  match sentences with
  | [] => ""
  | first :: _ =>
    let summary := summaryLoop maxLength sentences ""
    if summary ≠ "" then summary else (first.take maxLength) ++ "..."

/-- `detectLanguage` (part_003 lines 436-445, identical in
enhanced-fetcher.ts lines 293-302).  The source compares
`chineseChars / totalChars > 0.3` in IEEE doubles: with
`totalChars = 0` the quotient is `NaN` and the comparison is false, so
the guard carries `totalChars ≠ 0`; for `totalChars > 0` the
comparison is the exact `10 * chineseChars > 3 * totalChars` (the
double rounding of the quotient cannot cross the threshold for any
realistic string length). -/
def detectLanguage (text : String) : String :=
  let chineseChars := (text.data.filter isCJK).length
  let totalChars := (text.data.filter (fun c => !(jsWhitespace c))).length
  if totalChars ≠ 0 ∧ 3 * totalChars < 10 * chineseChars then "zh" else "en"

/-- The `ProcessingOptions` fields read by the embedded pipeline
(part_003 lines 4-15).  An absent optional number is `none`; the DOM
clean-up toggles are consumed by the opaque `HtmlPipeline` stages. -/
structure ProcessingOptions where
  extractMainContent : Bool := false
  preserveImages : Bool := false
  preserveLinks : Bool := false
  minTextLength : Option ℕ := none
  maxTextLength : Option ℕ := none
  language : Option String := none

/-- The result record (part_003 lines 17-28, `metadata` omitted as it
is DOM-derived). -/
structure ProcessedContent where
  title : String
  content : String
  markdown : String
  summary : String
  readingTime : ℕ
  wordCount : ℕ
  language : String
  extractedImages : List String
  extractedLinks : List (String × String)

/-- The DOM-dependent stages of `processContent` (cheerio + turndown),
as opaque functions of the raw HTML (and base URL where the code uses
it): title extraction, main-content selection, whole-body fallback,
HTML→Markdown conversion, image/link extraction. -/
structure HtmlPipeline where
  extractTitle : String → String
  mainContent : String → String
  bodyHtml : String → String
  turndown : String → String
  extractImages : String → String → List String
  extractLinks : String → String → List (String × String)

/-- The content chosen at part_003 lines 142-144:
`options.extractMainContent ? extractMainContent($) : body html`. -/
def selectedContent (pipe : HtmlPipeline) (html : String)
    (o : ProcessingOptions) : String :=
  if o.extractMainContent then pipe.mainContent html else pipe.bodyHtml html

/-- The error thrown at part_003 line 395 when the post-processed
content is shorter than `minTextLength`. -/
def tooShortMsg (m : ℕ) : String :=
  s!"內容太短，少於 {m} 個字符"

/-- The truthy minimum-length check at part_003 line 394:
`options.minTextLength && processed.length < options.minTextLength`
(an absent or zero minimum is falsy). -/
def minTooShort (o : ProcessingOptions) (processed : String) : Bool :=
  match o.minTextLength with
  | some m => decide (m ≠ 0) && decide (processed.length < m)
  | none => false

/-- The truncation at part_003 lines 398-400:
`processed.substring(0, maxTextLength) + '...'` when the (truthy)
maximum is exceeded. -/
def applyMaxLength (processed : String) (o : ProcessingOptions) : String :=
  match o.maxTextLength with
  | some mx =>
    if mx ≠ 0 ∧ mx < processed.length then (processed.take mx) ++ "..." else processed
  | none => processed

/-- `postProcessMarkdown` (part_003 lines 374-403).  The three regex
normalisation passes of lines 377-391 (blank-line collapsing, list
marker fix-up, link text trimming) run before the length checks; they
are abstracted as the string function `cleanup`, over which every
theorem quantifies.  Then: throw when shorter than the configured
minimum, truncate past the configured maximum, and return the trimmed
result. -/
def postProcessMarkdown (cleanup : String → String) (markdown : String)
    (o : ProcessingOptions) : Except String String :=
  let processed := cleanup markdown
  if minTooShort o processed then
    .error (tooShortMsg (o.minTextLength.getD 0))
  else
    .ok (jsTrim (applyMaxLength processed o))

/-- `processContent` (part_003 lines 120-174): select content, convert
to Markdown, post-process (propagating the length error), then build
the result record with the analysis fields. -/
def processContent (pipe : HtmlPipeline) (cleanup : String → String)
    (html url : String) (o : ProcessingOptions) :
    Except String ProcessedContent :=
  let title := pipe.extractTitle html
  let extractedImages := if o.preserveImages then pipe.extractImages html url else []
  let extractedLinks := if o.preserveLinks then pipe.extractLinks html url else []
  let mainContent := selectedContent pipe html o
  let markdown := pipe.turndown mainContent
  match postProcessMarkdown cleanup markdown o with
  | .error e => .error e
  | .ok processedMarkdown =>
    let wordCount := countWords processedMarkdown
    .ok { title := title,
          content := mainContent,
          markdown := processedMarkdown,
          summary := generateSummary processedMarkdown,
          readingTime := calculateReadingTime wordCount,
          wordCount := wordCount,
          language :=
            match o.language with
            | some l => if l ≠ "" then l else detectLanguage processedMarkdown
            | none => detectLanguage processedMarkdown,
          extractedImages := extractedImages,
          extractedLinks := extractedLinks }

/-! ## OpenAPI detection and formatting — `src/dist/index.js`

`isOpenAPIContent` (lines 114-132) first tries `JSON.parse`; a minimal
JSON parser over `List Char` (fuel-bounded, fuel = input length + 1,
which every parse within the fuel's reach respects) embeds it.  JSON
numbers become exact rationals.  Divergences confined to inputs that
are not valid JSON anyway (leading zeros, lone surrogates) are noted
inline.  `formatOpenAPISpec` (lines 232-344) is translated line by
line over the parsed value. -/

/-- A parsed JSON value.  Object fields keep source order; duplicate
keys are resolved at access time (last occurrence wins, as in the
objects `JSON.parse` builds). -/
inductive Json where
  | null
  | bool (b : Bool)
  | num (q : ℚ)
  | str (s : String)
  | arr (xs : List Json)
  | obj (fields : List (String × Json))

/-- JSON insignificant whitespace (space, tab, line feed, carriage
return). -/
def skipJsonWs (l : List Char) : List Char :=
  l.dropWhile (fun c => c == ' ' || c == '\t' || c == '\n' || c == '\r')

/-- Value of a hexadecimal digit. -/
def hexDigitVal (c : Char) : Option ℕ :=
  if '0' ≤ c ∧ c ≤ '9' then some (c.toNat - 48)
  else if 'a' ≤ c ∧ c ≤ 'f' then some (c.toNat - 87)
  else if 'A' ≤ c ∧ c ≤ 'F' then some (c.toNat - 55)
  else none

/-- The body of a JSON string after the opening quote: the decoded
characters and the input after the closing quote.  A `\uXXXX` escape
becomes the code point directly (a lone surrogate, invalid JSON text
anyway, is not paired). -/
def parseStringChars : List Char → Option (List Char × List Char)
  | [] => none
  | '"' :: rest => some ([], rest)
  | '\\' :: rest =>
    match rest with
    | [] => none
    | e :: rest2 =>
      match e with
      | '"' | '\\' | '/' => (parseStringChars rest2).map (fun p => (e :: p.1, p.2))
      | 'b' => (parseStringChars rest2).map (fun p => (Char.ofNat 8 :: p.1, p.2))
      | 'f' => (parseStringChars rest2).map (fun p => (Char.ofNat 12 :: p.1, p.2))
      | 'n' => (parseStringChars rest2).map (fun p => ('\n' :: p.1, p.2))
      | 'r' => (parseStringChars rest2).map (fun p => ('\r' :: p.1, p.2))
      | 't' => (parseStringChars rest2).map (fun p => ('\t' :: p.1, p.2))
      | 'u' =>
        match rest2 with
        | h1 :: h2 :: h3 :: h4 :: rest3 =>
          match hexDigitVal h1, hexDigitVal h2, hexDigitVal h3, hexDigitVal h4 with
          | some a, some b, some c, some d =>
            (parseStringChars rest3).map
              (fun p => (Char.ofNat (((a * 16 + b) * 16 + c) * 16 + d) :: p.1, p.2))
          | _, _, _, _ => none
        | _ => none
      | _ => none
  | c :: rest => (parseStringChars rest).map (fun p => (c :: p.1, p.2))

/-- Split a leading run of decimal digits. -/
def spanDigits (l : List Char) : List Char × List Char :=
  (l.takeWhile (fun c => c.isDigit), l.dropWhile (fun c => c.isDigit))

/-- Decimal digits to a natural number. -/
def digitsToNat (ds : List Char) : ℕ :=
  ds.foldl (fun acc c => acc * 10 + (c.toNat - 48)) 0

/-- A JSON number `-?digits(.digits)?([eE][+-]?digits)?` as an exact
rational.  (Leading zeros are accepted here though strict JSON rejects
them — such inputs already fail `JSON.parse`.) -/
def parseNumberChars (input : List Char) : Option (ℚ × List Char) :=
  let signAndRest : Bool × List Char :=
    match input with
    | '-' :: rest => (true, rest)
    | _ => (false, input)
  let neg := signAndRest.1
  let (ds, l2) := spanDigits signAndRest.2
  if ds.isEmpty then none
  else
    let mantAndRest : Option (ℚ × List Char) :=
      match l2 with
      | '.' :: rest =>
        let (fs, r) := spanDigits rest
        if fs.isEmpty then none
        else some ((digitsToNat ds : ℚ) + (digitsToNat fs : ℚ) / (10 : ℚ) ^ fs.length, r)
      | _ => some ((digitsToNat ds : ℚ), l2)
    match mantAndRest with
    | none => none
    | some (mant, l3) =>
      let expAndRest : Option (ℚ × List Char) :=
        match l3 with
        | 'e' :: rest | 'E' :: rest =>
          let signAndRest2 : ℤ × List Char :=
            match rest with
            | '+' :: r => (1, r)
            | '-' :: r => (-1, r)
            | _ => (1, rest)
          let (es, r2) := spanDigits signAndRest2.2
          if es.isEmpty then none
          else some ((10 : ℚ) ^ (signAndRest2.1 * (digitsToNat es : ℤ)), r2)
        | _ => some (1, l3)
      match expAndRest with
      | none => none
      | some (e, l4) => some ((if neg then -mant else mant) * e, l4)

mutual

/-- One JSON value, leading whitespace allowed; returns the value and
the unconsumed input.  `fuel` bounds the recursion depth. -/
def parseValue : ℕ → List Char → Option (Json × List Char)
  | 0, _ => none
  | fuel + 1, input =>
    match skipJsonWs input with
    | 'n' :: 'u' :: 'l' :: 'l' :: rest => some (.null, rest)
    | 't' :: 'r' :: 'u' :: 'e' :: rest => some (.bool true, rest)
    | 'f' :: 'a' :: 'l' :: 's' :: 'e' :: rest => some (.bool false, rest)
    | '"' :: rest =>
      match parseStringChars rest with
      | some (cs, r) => some (.str ⟨cs⟩, r)
      | none => none
    | '[' :: rest =>
      match skipJsonWs rest with
      | ']' :: r => some (.arr [], r)
      | other =>
        match parseItems fuel other with
        | some (xs, r) => some (.arr xs, r)
        | none => none
    | '{' :: rest =>
      match skipJsonWs rest with
      | '}' :: r => some (.obj [], r)
      | other =>
        match parseMembers fuel other with
        | some (fs, r) => some (.obj fs, r)
        | none => none
    | other =>
      match parseNumberChars other with
      | some (q, r) => some (.num q, r)
      | none => none

/-- Comma-separated array items up to the closing bracket. -/
def parseItems : ℕ → List Char → Option (List Json × List Char)
  | 0, _ => none
  | fuel + 1, input =>
    match parseValue fuel input with
    | some (v, r) =>
      match skipJsonWs r with
      | ',' :: r2 =>
        match parseItems fuel r2 with
        | some (vs, r3) => some (v :: vs, r3)
        | none => none
      | ']' :: r2 => some ([v], r2)
      | _ => none
    | none => none

/-- Comma-separated `"key": value` members up to the closing brace. -/
def parseMembers : ℕ → List Char → Option (List (String × Json) × List Char)
  | 0, _ => none
  | fuel + 1, input =>
    match skipJsonWs input with
    | '"' :: rest =>
      match parseStringChars rest with
      | some (key, r) =>
        match skipJsonWs r with
        | ':' :: r2 =>
          match parseValue fuel r2 with
          | some (v, r3) =>
            match skipJsonWs r3 with
            | ',' :: r4 =>
              match parseMembers fuel r4 with
              | some (fs, r5) => some ((⟨key⟩, v) :: fs, r5)
              | none => none
            | '}' :: r4 => some ([(⟨key⟩, v)], r4)
            | _ => none
          | none => none
        | _ => none
      | none => none
    | _ => none

end

/-- `JSON.parse`: one value, then only trailing whitespace. -/
def parseJson (s : String) : Option Json :=
  match parseValue (s.length + 1) s.data with
  | some (v, rest) => if (skipJsonWs rest).isEmpty then some v else none
  | none => none

/-- Property access `v[key]` on a parsed value: defined on objects
(last duplicate key wins, as in the object `JSON.parse` builds),
`undefined` (`none`) elsewhere. -/
def jsonGet (v : Json) (key : String) : Option Json :=
  match v with
  | .obj fields =>
    match fields.reverse.find? (fun p => p.1 == key) with
    | some p => some p.2
    | none => none
  | _ => none

/-- Optional chaining `v?.[key]`. -/
def optGet (v : Option Json) (key : String) : Option Json :=
  match v with
  | some j => jsonGet j key
  | none => none

/-- JavaScript truthiness of a possibly-undefined parsed value. -/
def jsTruthy : Option Json → Bool
  | none => false
  | some .null => false
  | some (.bool b) => b
  | some (.num q) => !(decide (q = 0))
  | some (.str s) => !(s == "")
  | some (.arr _) => true
  | some (.obj _) => true

mutual

/-- Template-literal conversion of a value, `${v}`.  Integers print
exactly; a non-integral rational prints as `num/den` (never exercised:
the formatter only interpolates strings and naturals).  Arrays join
their elements with `,`; objects print `[object Object]`. -/
def jsDisplay : Json → String
  | .null => "null"
  | .bool b => if b then "true" else "false"
  | .num q => if q.den = 1 then toString q.num else toString q.num ++ "/" ++ toString q.den
  | .str s => s
  | .arr xs => jsDisplayList xs
  | .obj _ => "[object Object]"

/-- `Array.prototype.toString`: elements joined with `,` (`null`
becomes the empty string). -/
def jsDisplayList : List Json → String
  | [] => ""
  | [x] => match x with
    | .null => ""
    | v => jsDisplay v
  | x :: y :: rest =>
    (match x with
     | .null => ""
     | v => jsDisplay v) ++ "," ++ jsDisplayList (y :: rest)

end

/-- `${v}` where `v` may be `undefined`. -/
def jsDisplayOpt : Option Json → String
  | none => "undefined"
  | some v => jsDisplay v

/-- `v || alt` interpolated into a template literal. -/
def jsOrElse (v : Option Json) (alt : String) : String :=
  if jsTruthy v then jsDisplay (v.getD .null) else alt

/-- `String.prototype.toLowerCase`, ASCII range (the configured names,
URLs and queries the code compares are ASCII). -/
def jsToLower (s : String) : String :=
  ⟨s.data.map Char.toLower⟩

/-- `String.prototype.toUpperCase`, ASCII range. -/
def jsToUpper (s : String) : String :=
  ⟨s.data.map Char.toUpper⟩

/-- Does `l` start with `pat`? -/
def leadMatch : List Char → List Char → Bool
  | _, [] => true
  | [], _ :: _ => false
  | c :: l, p :: ps => c == p && leadMatch l ps

/-- Does `l` contain `pat` as a contiguous run? -/
def listHasSub : List Char → List Char → Bool
  | [], pat => leadMatch [] pat
  | l@(_ :: t), pat => leadMatch l pat || listHasSub t pat

/-- `String.prototype.includes`. -/
def strIncludes (s pat : String) : Bool :=
  listHasSub s.data pat.data

/-- `isOpenAPIContent` (index.js lines 114-132): on a successful JSON
parse, `!!(parsed.openapi || parsed.swagger)`; otherwise the YAML
keyword heuristics over the lowercased text. -/
def isOpenAPIContent (content : String) : Bool :=
  match parseJson content with
  | some parsed =>
    jsTruthy (jsonGet parsed "openapi") || jsTruthy (jsonGet parsed "swagger")
  | none =>
    let lower := jsToLower content
    strIncludes lower "openapi:" || strIncludes lower "swagger:" ||
    strIncludes lower "openapi " || strIncludes lower "swagger " ||
    (strIncludes lower "swagger" &&
      (strIncludes lower "paths:" || strIncludes lower "definitions:" ||
       strIncludes lower "info:"))

/-- `Object.entries` on a parsed value of object type (`typeof v ===
'object' && v !== null`): object fields in order, array elements keyed
by index; `none` for primitives. -/
def objEntries : Json → Option (List (String × Json))
  | .obj fs => some fs
  | .arr xs => some (xs.enum.map (fun p => (toString p.1, p.2)))
  | _ => none

/-- `Object.keys(v).length` where the code has already found `v`
truthy. -/
def objKeyCount (v : Json) : ℕ :=
  ((objEntries v).getD []).length

/-- The HTTP methods recognised at index.js line 286. -/
def httpMethods : List String :=
  ["get", "post", "put", "delete", "patch", "options", "head", "trace"]

/-- `Array.prototype.join(sep)` over parsed values (`null` joins as the
empty string). -/
def jsJoin (sep : String) (xs : List Json) : String :=
  String.intercalate sep (xs.map (fun v =>
    match v with
    | .null => ""
    | w => jsDisplay w))

/-- The numbered server list of index.js lines 251-256. -/
def serverItems (idx : ℕ) : List Json → List String
  | [] => []
  | server :: rest =>
    let url := jsDisplayOpt (jsonGet server "url")
    let head := s!"{idx}. **{url}**"
    let descL :=
      if jsTruthy (jsonGet server "description") then
        let d := jsDisplay ((jsonGet server "description").getD .null)
        [s!"   - {d}"]
      else []
    (head :: descL) ++ serverItems (idx + 1) rest

/-- The servers section (index.js lines 249-278): OpenAPI 3.x
`servers[]` when present and non-empty, else the Swagger 2.0
`host`/`basePath`/`schemes`/`consumes`/`produces` block. -/
def serversSection (spec : Json) : List String :=
  match jsonGet spec "servers" with
  | some (.arr (s0 :: srest)) =>
    ["## Servers\n"] ++ serverItems 1 (s0 :: srest) ++ [""]
  | _ =>
    if jsTruthy (jsonGet spec "host") || jsTruthy (jsonGet spec "basePath") ||
        jsTruthy (jsonGet spec "schemes") then
      let hostL :=
        if jsTruthy (jsonGet spec "host") then
          let h := jsDisplay ((jsonGet spec "host").getD .null)
          [s!"- **Host**: {h}"]
        else []
      let baseL :=
        if jsTruthy (jsonGet spec "basePath") then
          let b := jsDisplay ((jsonGet spec "basePath").getD .null)
          [s!"- **Base Path**: {b}"]
        else []
      let schemesL :=
        match jsonGet spec "schemes" with
        | some (.arr (x :: xs)) =>
          let j := jsJoin ", " (x :: xs)
          [s!"- **Supported Protocols**: {j}"]
        | _ => []
      let consumesL :=
        match jsonGet spec "consumes" with
        | some (.arr (x :: xs)) =>
          let j := jsJoin ", " (x :: xs)
          [s!"- **Accept Formats**: {j}"]
        | _ => []
      let producesL :=
        match jsonGet spec "produces" with
        | some (.arr (x :: xs)) =>
          let j := jsJoin ", " (x :: xs)
          [s!"- **Response Formats**: {j}"]
        | _ => []
      ["## Server Information\n"] ++ hostL ++ baseL ++ schemesL ++ consumesL ++
        producesL ++ [""]
    else []

/-- The per-method lines of index.js lines 289-296. -/
def methodLines (methods : Json) : List String → List String
  | [] => []
  | method :: rest =>
    let operation := jsonGet methods method
    let mUp := jsToUpper method
    let summary :=
      if jsTruthy (optGet operation "summary") then
        jsDisplay ((optGet operation "summary").getD .null)
      else if jsTruthy (optGet operation "operationId") then
        jsDisplay ((optGet operation "operationId").getD .null)
      else s!"{mUp} operation"
    let headL := s!"- **{mUp}**: {summary}"
    let descL :=
      if jsTruthy (optGet operation "description") then
        let d := jsDisplay ((optGet operation "description").getD .null)
        [s!"  - {d}"]
      else []
    (headL :: descL) ++ methodLines methods rest

/-- The per-path blocks of index.js lines 284-300: only object-typed
path values contribute, and only when they hold at least one HTTP
method key. -/
def pathItems : List (String × Json) → List String
  | [] => []
  | (path, methods) :: rest =>
    let sectionL :=
      match objEntries methods with
      | some mfields =>
        let methodList := (mfields.map (fun p => p.1)).filter
          (fun k => httpMethods.contains (jsToLower k))
        if 0 < methodList.length then
          [s!"### `{path}`"] ++ methodLines methods methodList ++ [""]
        else []
      | none => []
    sectionL ++ pathItems rest

/-- The endpoints section (index.js lines 280-301). -/
def pathsSection (spec : Json) : List String :=
  match jsonGet spec "paths" with
  | some paths =>
    match objEntries paths with
    | some entries =>
      if 0 < entries.length then
        let n := entries.length
        ["## API Endpoints\n", s!"Total of **{n}** endpoints:\n"] ++
          pathItems entries
      else []
    | none => []
  | none => []

/-- One `- **Label**: N suffix` count line of the components and
definitions sections. -/
def countLine (v : Option Json) (label suffix : String) : List String :=
  if jsTruthy v then
    let n := objKeyCount (v.getD .null)
    [s!"- **{label}**: {n} {suffix}"]
  else []

/-- The components/definitions section (index.js lines 303-343). -/
def componentsSection (spec : Json) : List String :=
  let comp := jsonGet spec "components"
  if jsTruthy comp then
    ["## Components\n"] ++
      countLine (optGet comp "schemas") "Schemas" "data models" ++
      countLine (optGet comp "parameters") "Parameters" "reusable parameters" ++
      countLine (optGet comp "responses") "Responses" "reusable responses" ++
      countLine (optGet comp "securitySchemes") "Security Schemes"
        "security mechanisms" ++
      [""]
  else if jsTruthy (jsonGet spec "definitions") ||
      jsTruthy (jsonGet spec "parameters") ||
      jsTruthy (jsonGet spec "responses") ||
      jsTruthy (jsonGet spec "securityDefinitions") then
    ["## Definitions\n"] ++
      countLine (jsonGet spec "definitions") "Definitions" "data models" ++
      countLine (jsonGet spec "parameters") "Parameters" "reusable parameters" ++
      countLine (jsonGet spec "responses") "Responses" "reusable responses" ++
      countLine (jsonGet spec "securityDefinitions") "Security Definitions"
        "security definitions" ++
      [""]
  else []

/-- `formatOpenAPISpec` (index.js lines 232-344): basic information,
servers, endpoint listing, component counts, joined with newlines. -/
def formatOpenAPISpec (spec : Json) : String :=
  let info := jsonGet spec "info"
  let title := jsOrElse (optGet info "title") "Unknown"
  let version := jsOrElse (optGet info "version") "Unknown"
  let versionLines : List String :=
    if jsTruthy (jsonGet spec "openapi") then
      let v := jsDisplay ((jsonGet spec "openapi").getD .null)
      [s!"- **OpenAPI Version**: {v}"]
    else if jsTruthy (jsonGet spec "swagger") then
      let v := jsDisplay ((jsonGet spec "swagger").getD .null)
      [s!"- **Swagger Version**: {v}"]
    else []
  let descLines : List String :=
    if jsTruthy (optGet info "description") then
      let d := jsDisplay ((optGet info "description").getD .null)
      [s!"- **Description**: {d}"]
    else []
  let basic :=
    ["## API Basic Information\n",
     s!"- **API Name**: {title}",
     s!"- **Version**: {version}"] ++ versionLines ++ descLines ++ [""]
  String.intercalate "\n"
    (basic ++ serversSection spec ++ pathsSection spec ++ componentsSection spec)

/-! ## Relevance search — `src/dist/index.js`, `searchRelevantWebsites`
(lines 491-523)

The network fetch (`fetchWebsiteContent`) is the oracle
`fetch : Website → Option FetchedContent`; `none` is a fetch that
threw (the site is logged and skipped).  The embedding also returns
the list of sites for which the oracle was consulted, so that the
fetch-gating claim is expressible. -/

/-- A configured website (index.js lines 15-21). -/
structure Website where
  name : String
  url : String
  description : Option String

/-- What `fetchWebsiteContent` resolves with (the fields the search
reads). -/
structure FetchedContent where
  title : String
  content : String
  markdown : String

/-- One entry of the `results` array (index.js lines 509-513). -/
structure SearchResult where
  site : Website
  relevance : ℚ
  content : FetchedContent

/-- The pre-fetch metadata score (index.js lines 496-499):
`titleRelevance` and `descRelevance` both test the description
(0.3 and 0.2), `urlRelevance` tests the URL (0.1); all substring
checks are case-insensitive. -/
def preFetchScore (site : Website) (query : String) : ℚ :=
  let q := jsToLower query
  let titleRelevance : ℚ :=
    match site.description with
    | some d => if strIncludes (jsToLower d) q then 3/10 else 0
    | none => 0
  let descRelevance : ℚ :=
    match site.description with
    | some d => if strIncludes (jsToLower d) q then 2/10 else 0
    | none => 0
  let urlRelevance : ℚ := if strIncludes (jsToLower site.url) q then 1/10 else 0
  titleRelevance + descRelevance + urlRelevance

/-- The site loop of `searchRelevantWebsites` (index.js lines
494-520): fetch only when the pre-fetch score is positive, add 0.4
when the fetched Markdown contains the query, push when the total is
positive.  Returns the pushed results (in site order) and the sites
fetched. -/
def searchGo (fetch : Website → Option FetchedContent) (query : String) :
    List Website → List SearchResult × List Website
  | [] => ([], [])
  | site :: rest =>
    let tail := searchGo fetch query rest
    let relevance := preFetchScore site query
    if 0 < relevance then
      match fetch site with
      | some content =>
        let contentRelevance : ℚ :=
          if strIncludes (jsToLower content.markdown) (jsToLower query) then 4/10
          else 0
        let totalRelevance := relevance + contentRelevance
        if 0 < totalRelevance then
          (⟨site, totalRelevance, content⟩ :: tail.1, site :: tail.2)
        else
          (tail.1, site :: tail.2)
      | none => (tail.1, site :: tail.2)
    else tail

/-- `searchRelevantWebsites` (index.js lines 491-523): the loop, then
`results.sort((a, b) => b.relevance - a.relevance)` — a sort by
descending relevance. -/
def searchRelevantWebsites (fetch : Website → Option FetchedContent)
    (sites : List Website) (query : String) :
    List SearchResult × List Website :=
  let r := searchGo fetch query sites
  (r.1.mergeSort (fun a b => decide (b.relevance ≤ a.relevance)), r.2)

/-! ## Supporting lemmas -/

/-- On an everywhere-failing operation, the loop started at `attempt`
with `remaining` further attempts performs `remaining + 1` invocations
and throws the `RetryError` built from the final attempt. -/
lemma retryGo_allFail (o : RetryOptions) (err : ℕ → E) (rand : ℕ → ℚ)
    (fn : ℕ → Except E A) (hfn : ∀ i, fn i = .error (err i)) :
    ∀ remaining attempt, (retryGo o fn rand attempt remaining).1 =
        .error ⟨attempt + remaining + 1, err (attempt + remaining)⟩ ∧
      (retryGo o fn rand attempt remaining).2.1 = remaining + 1 := by
  intro remaining
  induction remaining with
  | zero => intro attempt; simp [retryGo, hfn attempt]
  | succ r ih =>
    intro attempt
    have h := ih (attempt + 1)
    have hsum : attempt + 1 + r = attempt + (r + 1) := by omega
    simp only [retryGo, hfn attempt]
    refine ⟨?_, ?_⟩
    · rw [h.1, hsum]
    · simp [h.2]

/-- The `i`-th slept delay recorded by the loop started at `attempt`
is the backoff delay of attempt `attempt + i`. -/
lemma retryGo_delay (o : RetryOptions) (fn : ℕ → Except E A) (rand : ℕ → ℚ) :
    ∀ remaining attempt i, i < (retryGo o fn rand attempt remaining).2.2.length →
      (retryGo o fn rand attempt remaining).2.2.getD i 0 =
        backoffDelay o (attempt + i) (rand (attempt + i)) := by
  intro remaining
  induction remaining with
  | zero =>
    intro attempt i h
    exfalso
    rcases hfa : fn attempt with e | a <;>
      simp [retryGo, hfa] at h
  | succ r ih =>
    intro attempt i h
    rcases hfa : fn attempt with e | a
    · rcases i with _ | j
      · simp [retryGo, hfa]
      · have h' : j < (retryGo o fn rand (attempt + 1) r).2.2.length := by
          simp [retryGo, hfa] at h
          omega
        have hj := ih (attempt + 1) j h'
        have hsum : attempt + 1 + j = attempt + (j + 1) := by omega
        rw [hsum] at hj
        simpa [retryGo, hfa] using hj
    · simp [retryGo, hfa] at h

lemma refill_tokensInRange {s : RateLimiterState} (h : TokensInRange s)
    (now : ℚ) : TokensInRange (s.refill now) := by
  obtain ⟨h0, h1⟩ := h
  unfold RateLimiterState.refill
  dsimp only
  split
  · rename_i hadd
    constructor
    · refine le_min (le_trans h0 h1) ?_
      have : (0 : ℚ) ≤ ⌊(now - s.lastRefill) / 1000 * s.refillRate⌋ := by
        exact_mod_cast le_of_lt hadd
      linarith
    · exact min_le_left _ _
  · exact ⟨h0, h1⟩

lemma refill_maxTokens (s : RateLimiterState) (now : ℚ) :
    (s.refill now).maxTokens = s.maxTokens := by
  unfold RateLimiterState.refill; dsimp only; split <;> rfl

lemma refill_refillRate (s : RateLimiterState) (now : ℚ) :
    (s.refill now).refillRate = s.refillRate := by
  unfold RateLimiterState.refill; dsimp only; split <;> rfl

lemma consumeStep_refillRate (s : RateLimiterState) (n now : ℚ) :
    (s.consumeStep n now).1.refillRate = s.refillRate := by
  unfold RateLimiterState.consumeStep
  dsimp only
  split <;> simp [refill_refillRate]

lemma adaptiveConsume_refillRate (s : AdaptiveState) (now : ℚ) :
    (s.consumeStep now).1.baseLimiter.refillRate =
      (s.adjustRate now).baseLimiter.refillRate := by
  unfold AdaptiveState.consumeStep
  dsimp only
  rw [consumeStep_refillRate]

lemma adjustRate_refillRate (s : AdaptiveState) (now : ℚ)
    (h : s.errorThreshold ≤ s.errorCount) :
    (s.adjustRate now).baseLimiter.refillRate =
      s.baseRate * min (1/10) (1 / (s.errorCount - s.errorThreshold + 1)) := by
  unfold AdaptiveState.adjustRate
  dsimp only
  rw [if_pos h]
  rfl

lemma clStep_inv (outcome : ℕ → A) (s : CLState A) (e : CLEvent)
    (h : CLInv outcome s) : CLInv outcome (clStep outcome s e) := by
  obtain ⟨hlen, hsub, hset⟩ := h
  cases e with
  | submit t =>
    unfold clStep CLState.submit
    dsimp only
    split
    · rename_i hroom
      refine ⟨by simpa using hroom, ?_, hset⟩
      exact hsub.trans (List.sublist_append_left _ _)
    · refine ⟨hlen, ?_, hset⟩
      rw [← List.append_assoc]
      exact hsub.append (List.Sublist.refl _)
  | finish t =>
    unfold clStep CLState.finishTask
    dsimp only
    split
    · rename_i hmem
      have herase : (s.active.erase t).length = s.active.length - 1 :=
        List.length_erase_of_mem hmem
      have hset1 : ∀ p ∈ s.settled ++ [(t, outcome t)], p.2 = outcome p.1 := by
        intro p hp
        rcases List.mem_append.mp hp with hp | hp
        · exact hset p hp
        · rcases List.mem_singleton.mp hp with rfl; rfl
      split
      · refine ⟨?_, by simpa using hsub, hset1⟩
        show (s.active.erase t).length ≤ s.maxConcurrency
        omega
      · rename_i next rest hpend
        split
        · rename_i hroom
          have hroom1 : (s.active.erase t).length < s.maxConcurrency := hroom
          refine ⟨?_, ?_, hset1⟩
          · show (s.active.erase t ++ [next]).length ≤ s.maxConcurrency
            simp only [List.length_append, List.length_singleton]
            omega
          · show ((s.dequeued ++ [next]) ++ rest).Sublist s.submitted
            rw [List.append_assoc]
            simpa [hpend] using hsub
        · refine ⟨?_, by simpa using hsub, hset1⟩
          show (s.active.erase t).length ≤ s.maxConcurrency
          omega
    · exact ⟨hlen, hsub, hset⟩
  | clear =>
    unfold clStep CLState.clearQueue
    refine ⟨hlen, ?_, hset⟩
    dsimp only
    rw [List.append_nil]
    exact (List.sublist_append_left _ _).trans hsub

lemma clRun_inv (outcome : ℕ → A) (events : List CLEvent) :
    ∀ s : CLState A, CLInv outcome s → CLInv outcome (clRun outcome s events) := by
  induction events with
  | nil => intro s h; exact h
  | cons e es ih =>
    intro s h
    exact ih _ (clStep_inv outcome s e h)

lemma clStep_untouched (outcome : ℕ → A) {s : CLState A} {t : ℕ}
    (h : Untouched t s) (e : CLEvent) (he : e ≠ CLEvent.submit t) :
    Untouched t (clStep outcome s e) := by
  obtain ⟨hact, hpend, hset⟩ := h
  cases e with
  | submit u =>
    have hut : u ≠ t := fun huv => he (by rw [huv])
    unfold clStep CLState.submit
    dsimp only
    split
    · refine ⟨?_, hpend, hset⟩
      simp only [List.mem_append, List.mem_singleton]
      rintro (hmem | rfl)
      · exact hact hmem
      · exact hut rfl
    · refine ⟨hact, ?_, hset⟩
      simp only [List.mem_append, List.mem_singleton]
      rintro (hmem | rfl)
      · exact hpend hmem
      · exact hut rfl
  | finish u =>
    unfold clStep CLState.finishTask
    dsimp only
    split
    · rename_i hmem
      have hut : u ≠ t := fun huv => hact (huv ▸ hmem)
      have hact1 : t ∉ s.active.erase u :=
        fun hin => hact (List.mem_of_mem_erase hin)
      have hset1 : ∀ p ∈ s.settled ++ [(u, outcome u)], p.1 ≠ t := by
        intro p hp
        rcases List.mem_append.mp hp with hp | hp
        · exact hset p hp
        · rcases List.mem_singleton.mp hp with rfl; exact hut
      split
      · exact ⟨hact1, by simpa using hpend, hset1⟩
      · rename_i next rest hpendeq
        have hnt : next ≠ t := by
          intro hnx
          exact hpend (by rw [hpendeq, ← hnx]; exact List.mem_cons_self _ _)
        have hrt : t ∉ rest := by
          intro hin
          exact hpend (by rw [hpendeq]; exact List.mem_cons_of_mem _ hin)
        split
        · refine ⟨?_, hrt, hset1⟩
          simp only [List.mem_append, List.mem_singleton]
          rintro (hin | rfl)
          · exact hact1 hin
          · exact hnt rfl
        · exact ⟨hact1, by simpa using hpend, hset1⟩
    · exact ⟨hact, hpend, hset⟩
  | clear =>
    exact ⟨hact, List.not_mem_nil t, hset⟩

lemma clRun_untouched (outcome : ℕ → A) {t : ℕ} (events : List CLEvent)
    (hfresh : ∀ e ∈ events, e ≠ CLEvent.submit t) :
    ∀ s : CLState A, Untouched t s → Untouched t (clRun outcome s events) := by
  induction events with
  | nil => intro s h; exact h
  | cons e es ih =>
    intro s h
    exact ih (fun x hx => hfresh x (List.mem_cons_of_mem _ hx)) _
      (clStep_untouched outcome h e (hfresh e (List.mem_cons_self _ _)))

lemma searchGo_fetched_pos (fetch : Website → Option FetchedContent)
    (query : String) :
    ∀ sites site, site ∈ (searchGo fetch query sites).2 →
      0 < preFetchScore site query := by
  intro sites
  induction sites with
  | nil => intro site h; simp [searchGo] at h
  | cons s rest ih =>
    intro site h
    by_cases hrel : 0 < preFetchScore s query
    · rcases hf : fetch s with _ | content
      · simp [searchGo, hrel, hf] at h
        rcases h with rfl | hm
        · exact hrel
        · exact ih site hm
      · by_cases hc : strIncludes (jsToLower content.markdown) (jsToLower query) = true
        · have htot : 0 < preFetchScore s query + (4/10 : ℚ) := by linarith
          simp [searchGo, hrel, hf, hc, htot] at h
          rcases h with rfl | hm
          · exact hrel
          · exact ih site hm
        · simp only [Bool.not_eq_true] at hc
          simp [searchGo, hrel, hf, hc] at h
          rcases h with rfl | hm
          · exact hrel
          · exact ih site hm
    · simp [searchGo, hrel] at h
      exact ih site h

lemma searchGo_results_pos (fetch : Website → Option FetchedContent)
    (query : String) :
    ∀ sites r, r ∈ (searchGo fetch query sites).1 → 0 < r.relevance := by
  intro sites
  induction sites with
  | nil => intro r h; simp [searchGo] at h
  | cons s rest ih =>
    intro r h
    by_cases hrel : 0 < preFetchScore s query
    · rcases hf : fetch s with _ | content
      · simp [searchGo, hrel, hf] at h
        exact ih r h
      · by_cases hc : strIncludes (jsToLower content.markdown) (jsToLower query) = true
        · have htot : 0 < preFetchScore s query + (4/10 : ℚ) := by linarith
          simp [searchGo, hrel, hf, hc, htot] at h
          rcases h with rfl | hm
          · simpa using htot
          · exact ih r hm
        · simp only [Bool.not_eq_true] at hc
          simp [searchGo, hrel, hf, hc] at h
          rcases h with rfl | hm
          · simpa using hrel
          · exact ih r hm
    · simp [searchGo, hrel] at h
      exact ih r h

end W2M

/-- The adaptive limiter state used for C4: `baseRate = 10`,
`errorThreshold = 3`, `errorCount = 4` (strictly above the threshold). -/
def c4State : W2M.AdaptiveState :=
  { baseRate := 10, maxTokens := 20, errorThreshold := 3,
    baseLimiter := W2M.RateLimiterState.new 20 10 0,
    errorCount := 4, successCount := 0, lastErrorTime := 0,
    adaptationWindow := 60000 }

/-- The pipeline fixture for the C3 witness: the conversion output is
the two-character string `md`. -/
def c3Pipe : W2M.HtmlPipeline :=
  ⟨fun _ => "T", fun _ => "main", fun _ => "body", fun _ => "md",
   fun _ _ => [], fun _ _ => []⟩

/-- The options fixture for the C3 witness: minimum length 5. -/
def c3Opts : W2M.ProcessingOptions :=
  { minTextLength := some 5 }

/-- The C7 input document, exactly as the spec gives it. -/
def c7Input : String :=
  "\x7b\"openapi\":\"3.0.0\",\"info\":\x7b\"title\":\"T\",\"version\":\"1.0\"\x7d,\"paths\":\x7b\"/a\":\x7b\"get\":\x7b\x7d\x7d\x7d\x7d"

/-- The value `JSON.parse` produces for `c7Input`. -/
def c7Doc : W2M.Json :=
  .obj [("openapi", .str "3.0.0"),
        ("info", .obj [("title", .str "T"), ("version", .str "1.0")]),
        ("paths", .obj [("/a", .obj [("get", .obj [])])])]


/-- **C1.** For every `retries = r` and every operation that fails on all
invocations, `retry` invokes the operation exactly `r + 1` times and
throws a `RetryError` whose `attempts` field equals `r + 1` and whose
`lastError` is the error of the last (`r`-th) invocation. -/
theorem C1_retry_allFail_attempts (o : W2M.RetryOptions) (E A : Type)
    (fn : ℕ → Except E A) (rand : ℕ → ℚ) (err : ℕ → E)
    (hfn : ∀ i, fn i = .error (err i)) :
    (W2M.retry o fn rand).1 = .error ⟨o.retries + 1, err o.retries⟩ ∧
      (W2M.retry o fn rand).2.1 = o.retries + 1 := by
  have h := W2M.retryGo_allFail o err rand fn hfn o.retries 0
  simpa [W2M.retry] using h

/-- Witness for C1: `retries = 2` with an operation failing with error
`i` at invocation `i`: three invocations, `RetryError` with
`attempts = 3` and last error `2`. -/
theorem C1_retry_allFail_attempts_witness :
    (W2M.retry ⟨2, 2, 1, 100, false⟩ (fun i => (.error i : Except ℕ ℕ))
        (fun _ => 0)).1 = .error ⟨3, 2⟩ ∧
      (W2M.retry ⟨2, 2, 1, 100, false⟩ (fun i => (.error i : Except ℕ ℕ))
        (fun _ => 0)).2.1 = 3 :=
  C1_retry_allFail_attempts ⟨2, 2, 1, 100, false⟩ ℕ ℕ
    (fun i => .error i) (fun _ => 0) (fun i => i) (fun _ => rfl)

/-- **C5.** In any `retry` run, the `k`-th slept delay (0-indexed; a
delay is slept exactly after an attempt `k` that is followed by a
further attempt) equals `min(minTimeout * factor^k, maxTimeout)`
multiplied by a factor `s`: with `randomize` off, `s = 1`; with
`randomize` on and the `k`-th random draw in `[0, 1)`, `s` lies in
`[1/2, 3/2]`. -/
theorem C5_backoff_delay (o : W2M.RetryOptions) (E A : Type)
    (fn : ℕ → Except E A) (rand : ℕ → ℚ) (k : ℕ)
    (hk : k < (W2M.retry o fn rand).2.2.length)
    (h0 : 0 ≤ rand k) (h1 : rand k < 1) :
    ∃ s, 1/2 ≤ s ∧ s ≤ 3/2 ∧
      (W2M.retry o fn rand).2.2.getD k 0 =
        min (o.minTimeout * o.factor ^ k) o.maxTimeout * s ∧
      (o.randomize = false → s = 1) := by
  have h := W2M.retryGo_delay o fn rand o.retries 0 k
    (by simpa [W2M.retry] using hk)
  simp only [Nat.zero_add] at h
  unfold W2M.backoffDelay at h
  cases hr : o.randomize with
  | false =>
    refine ⟨1, by norm_num, by norm_num, ?_, fun _ => rfl⟩
    rw [mul_one]
    simpa [hr, W2M.retry] using h
  | true =>
    refine ⟨rand k + 1/2, by linarith, by linarith, ?_, by simp [hr]⟩
    simpa [hr, W2M.retry] using h

/-- Witness for C5: `retries = 2`, `factor = 2`, `minTimeout = 1`,
`maxTimeout = 100`, `randomize = true`, all attempts failing, random
draw 0: the first slept delay is `min(1 * 2^0, 100) * s` for some
`s ∈ [1/2, 3/2]`. -/
theorem C5_backoff_delay_witness :
    (0 < (W2M.retry ⟨2, 2, 1, 100, true⟩
        (fun _ => (.error 0 : Except ℕ ℕ)) (fun _ => 0)).2.2.length) ∧
    (0 : ℚ) ≤ 0 ∧ (0 : ℚ) < 1 ∧
    ∃ s, 1/2 ≤ s ∧ s ≤ 3/2 ∧
      (W2M.retry ⟨2, 2, 1, 100, true⟩
        (fun _ => (.error 0 : Except ℕ ℕ)) (fun _ => 0)).2.2.getD 0 0 =
        min ((1 : ℚ) * 2 ^ 0) 100 * s ∧
      (true = false → s = 1) :=
  ⟨by decide, le_refl 0, by norm_num,
    C5_backoff_delay ⟨2, 2, 1, 100, true⟩ ℕ ℕ
      (fun _ => .error 0) (fun _ => 0) 0 (by decide) (le_refl 0) (by norm_num)⟩

/-- **C8.** The token bucket keeps `tokens ∈ [0, maxTokens]`: right
after construction and after each `refill`, `consume` pass (with a
nonnegative request) and `getAvailableTokens`; moreover, with a
monotone clock and a nonnegative refill rate, `refill` sets the stored
count to exactly `min(maxTokens, tokens + floor(elapsedSeconds *
refillRate))` — and `consume` performs this refill before checking
availability (it tests the refilled state, by definition of
`consumeStep`). -/
theorem C8_tokenBucket_invariant (m r t0 now n : ℚ) (s : W2M.RateLimiterState)
    (hm : 0 ≤ m) (hs : W2M.TokensInRange s) (hn : 0 ≤ n)
    (hrate : 0 ≤ s.refillRate) (hnow : s.lastRefill ≤ now) :
    W2M.TokensInRange (W2M.RateLimiterState.new m r t0) ∧
    W2M.TokensInRange (s.refill now) ∧
    W2M.TokensInRange (s.consumeStep n now).1 ∧
    W2M.TokensInRange (s.getAvailableTokens now).1 ∧
    (s.refill now).tokens =
      min s.maxTokens
        (s.tokens + (⌊(now - s.lastRefill) / 1000 * s.refillRate⌋ : ℤ)) := by
  have hrefill := W2M.refill_tokensInRange hs now
  refine ⟨⟨hm, le_refl m⟩, hrefill, ?_, hrefill, ?_⟩
  · unfold W2M.RateLimiterState.consumeStep
    dsimp only
    split
    · rename_i htok
      have h1 := hrefill.1
      have h2 := hrefill.2
      constructor
      · show (0 : ℚ) ≤ (s.refill now).tokens - n
        linarith
      · show (s.refill now).tokens - n ≤ (s.refill now).maxTokens
        linarith
    · exact hrefill
  · have hfloor : (0 : ℤ) ≤ ⌊(now - s.lastRefill) / 1000 * s.refillRate⌋ := by
      apply Int.floor_nonneg.mpr
      have h1 : (0 : ℚ) ≤ (now - s.lastRefill) / 1000 := by
        apply div_nonneg (by linarith) (by norm_num)
      exact mul_nonneg h1 hrate
    unfold W2M.RateLimiterState.refill
    dsimp only
    split
    · rfl
    · rename_i hneg
      have hz : ⌊(now - s.lastRefill) / 1000 * s.refillRate⌋ = 0 := by omega
      rw [hz]
      push_cast
      rw [add_zero]
      exact (min_eq_right hs.2).symm

/-- Witness for C8: a bucket `maxTokens = 5`, `refillRate = 1` holding
3 tokens, refilled 2000ms later: `min(5, 3 + floor(2 * 1)) = 5`. -/
theorem C8_tokenBucket_invariant_witness :
    (0 : ℚ) ≤ 5 ∧ W2M.TokensInRange ⟨5, 1, 3, 0⟩ ∧ (0 : ℚ) ≤ 1 ∧
    ((⟨5, 1, 3, 0⟩ : W2M.RateLimiterState).refill 2000).tokens =
      min (5 : ℚ) (3 + ((⌊((2000 : ℚ) - 0) / 1000 * 1⌋ : ℤ) : ℚ)) :=
  ⟨by norm_num, ⟨by decide, by decide⟩, by norm_num,
   (C8_tokenBucket_invariant 5 1 0 2000 1 ⟨5, 1, 3, 0⟩ (by norm_num)
     ⟨by decide, by decide⟩ (by norm_num) (by decide) (by decide)).2.2.2.2⟩

/-- **C4 is false as stated.**  With `baseRate = 10`,
`errorThreshold = 3` and `errorCount = 4`, the rebuilt internal limiter
after a `consume` has refill rate `10 * min(0.1, 1/2) = 1`, not
`baseRate * 1 / (errorCount - errorThreshold + 1) = 10 * (1/2) = 5`:
the code clamps the slowdown factor at `0.1`
(`Math.min(0.1, 1 / (errorCount - errorThreshold + 1))`,
rate-limiter.ts line 166). -/
theorem C4_counterexample :
    (c4State.consumeStep 0).1.baseLimiter.refillRate = 1 ∧
    ¬((c4State.consumeStep 0).1.baseLimiter.refillRate =
        c4State.baseRate * (1 / (c4State.errorCount - c4State.errorThreshold + 1))) := by
  have hr : (c4State.consumeStep 0).1.baseLimiter.refillRate = 1 := by
    rw [W2M.adaptiveConsume_refillRate,
      W2M.adjustRate_refillRate c4State 0 (by norm_num [c4State])]
    rw [show (1 : ℚ) / (c4State.errorCount - c4State.errorThreshold + 1) = 1/2 by
      norm_num [c4State]]
    rw [min_eq_left (by norm_num : (1 : ℚ)/10 ≤ 1/2)]
    norm_num [c4State]
  refine ⟨hr, ?_⟩
  rw [hr]
  norm_num [c4State]

/-- **C4 (amended).**  For every `AdaptiveRateLimiter` state whose
`errorCount` strictly exceeds `errorThreshold` when `consume` is
called, the effective refill rate of the rebuilt internal limiter
equals `baseRate * min(1/10, 1 / (errorCount - errorThreshold + 1))`:
the claimed factor `1 / (errorCount - errorThreshold + 1)` is clamped
at `0.1`. -/
theorem C4_amended_adaptive_rate (s : W2M.AdaptiveState) (now : ℚ)
    (h : s.errorThreshold < s.errorCount) :
    ((s.consumeStep now).1).baseLimiter.refillRate =
      s.baseRate * min (1/10) (1 / (s.errorCount - s.errorThreshold + 1)) := by
  rw [W2M.adaptiveConsume_refillRate, W2M.adjustRate_refillRate s now (le_of_lt h)]

/-- Witness for the amended C4: on `c4State` (`errorCount = 4`,
`errorThreshold = 3`, `baseRate = 10`) the rebuilt rate is
`10 * min(1/10, 1/2)`. -/
theorem C4_amended_adaptive_rate_witness :
    c4State.errorThreshold < c4State.errorCount ∧
    ((c4State.consumeStep 0).1).baseLimiter.refillRate =
      c4State.baseRate * min (1/10) (1 / (c4State.errorCount - c4State.errorThreshold + 1)) :=
  ⟨by norm_num [c4State], C4_amended_adaptive_rate c4State 0 (by norm_num [c4State])⟩

/-- **C2.** For every `ConcurrencyLimiter` and every sequence of
cooperative transitions (run-call submissions, task completions, queue
clears) from the initial state: at most `maxConcurrency` tasks are
active at any instant; the order in which waiting tasks leave the
queue, followed by the tasks still waiting, is an ordered sublist of
the submission order (FIFO dequeue); and every settled promise carries
the outcome of the task submitted by its own `run` call. -/
theorem C2_concurrencyLimiter_invariant (A : Type) (outcome : ℕ → A)
    (maxC : ℕ) (events : List W2M.CLEvent) :
    (W2M.clRun outcome (W2M.CLState.init A maxC) events).active.length ≤
      (W2M.clRun outcome (W2M.CLState.init A maxC) events).maxConcurrency ∧
    ((W2M.clRun outcome (W2M.CLState.init A maxC) events).dequeued ++
      (W2M.clRun outcome (W2M.CLState.init A maxC) events).pending).Sublist
      (W2M.clRun outcome (W2M.CLState.init A maxC) events).submitted ∧
    ∀ p ∈ (W2M.clRun outcome (W2M.CLState.init A maxC) events).settled,
      p.2 = outcome p.1 := by
  have h := W2M.clRun_inv outcome events (W2M.CLState.init A maxC)
    ⟨by simp [W2M.CLState.init], by simp [W2M.CLState.init],
     by simp [W2M.CLState.init]⟩
  exact h

/-- **C10.** If task `t` is waiting in the queue (queued, not active,
its promise unsettled) when `clearQueue()` is called, and no later
`run` call reuses id `t`, then: immediately after `clearQueue()` the
pending queue is empty, and along every subsequent transition sequence
`t` is never executed (never active) and its promise is never resolved
nor rejected. -/
theorem C10_clearQueue_drops_waiters (A : Type) (outcome : ℕ → A)
    (maxC : ℕ) (events1 events2 : List W2M.CLEvent) (t : ℕ)
    (hpend : t ∈ (W2M.clRun outcome (W2M.CLState.init A maxC) events1).pending)
    (hact : t ∉ (W2M.clRun outcome (W2M.CLState.init A maxC) events1).active)
    (hset : ∀ p ∈ (W2M.clRun outcome (W2M.CLState.init A maxC) events1).settled,
      p.1 ≠ t)
    (hfresh : ∀ e ∈ events2, e ≠ W2M.CLEvent.submit t) :
    ((W2M.clRun outcome (W2M.CLState.init A maxC) events1).clearQueue).pending = [] ∧
    ∀ pre, pre <+: events2 →
      t ∉ (W2M.clRun outcome
            ((W2M.clRun outcome (W2M.CLState.init A maxC) events1).clearQueue)
            pre).active ∧
      t ∉ (W2M.clRun outcome
            ((W2M.clRun outcome (W2M.CLState.init A maxC) events1).clearQueue)
            pre).pending ∧
      ∀ p ∈ (W2M.clRun outcome
            ((W2M.clRun outcome (W2M.CLState.init A maxC) events1).clearQueue)
            pre).settled, p.1 ≠ t := by
  constructor
  · rfl
  · intro pre hpre
    have h0 : W2M.Untouched t
        ((W2M.clRun outcome (W2M.CLState.init A maxC) events1).clearQueue) :=
      ⟨hact, List.not_mem_nil t, hset⟩
    exact W2M.clRun_untouched outcome pre
      (fun e he => hfresh e (hpre.sublist.subset he)) _ h0

/-- Witness for C10: `maxConcurrency = 1`; task 0 starts, task 1
queues; after `clearQueue()` and the completion of task 0, task 1 is
neither active nor queued and its promise is unsettled. -/
theorem C10_clearQueue_drops_waiters_witness :
    (1 ∈ (W2M.clRun (fun t => t) (W2M.CLState.init ℕ 1)
        [.submit 0, .submit 1]).pending) ∧
    (1 ∉ (W2M.clRun (fun t => t) (W2M.CLState.init ℕ 1)
        [.submit 0, .submit 1]).active) ∧
    (∀ p ∈ (W2M.clRun (fun t => t) (W2M.CLState.init ℕ 1)
        [.submit 0, .submit 1]).settled, p.1 ≠ 1) ∧
    (∀ e ∈ [W2M.CLEvent.finish 0], e ≠ W2M.CLEvent.submit 1) ∧
    (((W2M.clRun (fun t => t) (W2M.CLState.init ℕ 1)
        [.submit 0, .submit 1]).clearQueue).pending = [] ∧
     ∀ pre, pre <+: [W2M.CLEvent.finish 0] →
       1 ∉ (W2M.clRun (fun t => t)
             ((W2M.clRun (fun t => t) (W2M.CLState.init ℕ 1)
               [.submit 0, .submit 1]).clearQueue) pre).active ∧
       1 ∉ (W2M.clRun (fun t => t)
             ((W2M.clRun (fun t => t) (W2M.CLState.init ℕ 1)
               [.submit 0, .submit 1]).clearQueue) pre).pending ∧
       ∀ p ∈ (W2M.clRun (fun t => t)
             ((W2M.clRun (fun t => t) (W2M.CLState.init ℕ 1)
               [.submit 0, .submit 1]).clearQueue) pre).settled, p.1 ≠ 1) :=
  ⟨by decide, by decide, by decide, by decide,
   C10_clearQueue_drops_waiters ℕ (fun t => t) 1 [.submit 0, .submit 1]
     [.finish 0] 1 (by decide) (by decide) (by decide) (by decide)⟩

/-- **C3.** With a configured positive minimum length `m`: when the
post-processed Markdown (the regex-cleaned conversion output, before
truncation and trimming) is shorter than `m`, `processContent` raises
the content-too-short error and returns no result record; and every
returned record's `markdown` was produced from post-processed content
of length at least `m` (then truncated at the configured maximum and
trimmed). -/
theorem C3_min_length_gate (pipe : W2M.HtmlPipeline) (cleanup : String → String)
    (html url : String) (o : W2M.ProcessingOptions) (m : ℕ)
    (hmin : o.minTextLength = some m) (hm : 0 < m) :
    ((cleanup (pipe.turndown (W2M.selectedContent pipe html o))).length < m →
      W2M.processContent pipe cleanup html url o = .error (W2M.tooShortMsg m)) ∧
    ∀ r, W2M.processContent pipe cleanup html url o = .ok r →
      m ≤ (cleanup (pipe.turndown (W2M.selectedContent pipe html o))).length ∧
      r.markdown = W2M.jsTrim (W2M.applyMaxLength
        (cleanup (pipe.turndown (W2M.selectedContent pipe html o))) o) := by
  have hne : m ≠ 0 := by omega
  constructor
  · intro hshort
    have hts : W2M.minTooShort o
        (cleanup (pipe.turndown (W2M.selectedContent pipe html o))) = true := by
      unfold W2M.minTooShort
      rw [hmin]
      simp [hne, hshort]
    simp [W2M.processContent, W2M.postProcessMarkdown, hts, hmin]
  · intro r hr
    by_cases hts : W2M.minTooShort o
        (cleanup (pipe.turndown (W2M.selectedContent pipe html o))) = true
    · simp [W2M.processContent, W2M.postProcessMarkdown, hts] at hr
    · have hlen : m ≤ (cleanup (pipe.turndown (W2M.selectedContent pipe html o))).length := by
        unfold W2M.minTooShort at hts
        rw [hmin] at hts
        simp [hne] at hts
        omega
      refine ⟨hlen, ?_⟩
      simp [W2M.processContent, W2M.postProcessMarkdown, hts] at hr
      subst hr
      rfl

/-- Witness for C3: with `minTextLength = 5` and conversion output
`md`, the short branch applies (and indeed `processContent` errors). -/
theorem C3_min_length_gate_witness :
    c3Opts.minTextLength = some 5 ∧ 0 < 5 ∧
    (((id (c3Pipe.turndown (W2M.selectedContent c3Pipe "h" c3Opts))).length < 5 →
       W2M.processContent c3Pipe id "h" "u" c3Opts = .error (W2M.tooShortMsg 5)) ∧
     ∀ r, W2M.processContent c3Pipe id "h" "u" c3Opts = .ok r →
       5 ≤ (id (c3Pipe.turndown (W2M.selectedContent c3Pipe "h" c3Opts))).length ∧
       r.markdown = W2M.jsTrim (W2M.applyMaxLength
         (id (c3Pipe.turndown (W2M.selectedContent c3Pipe "h" c3Opts))) c3Opts)) :=
  ⟨rfl, by norm_num,
   C3_min_length_gate c3Pipe id "h" "u" c3Opts 5 rfl (by norm_num)⟩

/-- **C9.** On input containing no non-whitespace characters (the
empty string included), `detectLanguage` returns the default `en`: the
CJK-ratio guard — `NaN > 0.3` in the source, `totalChars ≠ 0 ∧ ...`
here — never selects the CJK branch when the denominator is zero. -/
theorem C9_detectLanguage_whitespace_only (text : String)
    (h : ∀ c ∈ text.data, W2M.jsWhitespace c = true) :
    W2M.detectLanguage text = "en" := by
  have hfil : text.data.filter (fun c => !(W2M.jsWhitespace c)) = [] := by
    rw [List.filter_eq_nil_iff]
    intro c hc
    simp [h c hc]
  unfold W2M.detectLanguage
  dsimp only
  rw [hfil]
  simp

/-- Witness for C9: the empty string and a pure-whitespace string both
classify as `en`. -/
theorem C9_detectLanguage_whitespace_only_witness :
    (∀ c ∈ ("" : String).data, W2M.jsWhitespace c = true) ∧
    W2M.detectLanguage "" = "en" ∧
    (∀ c ∈ (" \t\n" : String).data, W2M.jsWhitespace c = true) ∧
    W2M.detectLanguage " \t\n" = "en" :=
  ⟨by decide, C9_detectLanguage_whitespace_only "" (by decide),
   by decide, C9_detectLanguage_whitespace_only " \t\n" (by decide)⟩

/-- **C6.** For every query, site list and fetch oracle: a network
fetch is performed for a site only when its pre-fetch metadata score
(description 0.3 + description 0.2 + URL 0.1) is strictly positive;
every returned entry has strictly positive total relevance (so
zero-score sites are absent); and the returned list is sorted in
descending order of total relevance. -/
theorem C6_relevance_search_gating_and_order
    (fetch : W2M.Website → Option W2M.FetchedContent)
    (sites : List W2M.Website) (query : String) :
    (∀ site ∈ (W2M.searchRelevantWebsites fetch sites query).2,
      0 < W2M.preFetchScore site query) ∧
    (∀ r ∈ (W2M.searchRelevantWebsites fetch sites query).1, 0 < r.relevance) ∧
    (W2M.searchRelevantWebsites fetch sites query).1.Sorted
      (fun a b => b.relevance ≤ a.relevance) := by
  refine ⟨?_, ?_, ?_⟩
  · intro site h
    exact W2M.searchGo_fetched_pos fetch query sites site h
  · intro r h
    have hm : r ∈ (W2M.searchGo fetch query sites).1 := by
      unfold W2M.searchRelevantWebsites at h
      dsimp only at h
      exact List.mem_mergeSort.mp h
    exact W2M.searchGo_results_pos fetch query sites r hm
  · unfold W2M.searchRelevantWebsites
    dsimp only
    have hs : ((W2M.searchGo fetch query sites).1.mergeSort
        (fun a b => decide (b.relevance ≤ a.relevance))).Pairwise
        (fun a b => decide (b.relevance ≤ a.relevance) = true) :=
      List.sorted_mergeSort
        (fun a b c h1 h2 => by
          simp only [decide_eq_true_eq] at *
          exact le_trans h2 h1)
        (fun a b => by
          simp only [Bool.or_eq_true, decide_eq_true_eq]
          exact le_total _ _)
        (W2M.searchGo fetch query sites).1
    exact hs.imp (fun h => of_decide_eq_true h)

/-- **C7.** On the input
`{"openapi":"3.0.0","info":{"title":"T","version":"1.0"},"paths":{"/a":{"get":{}}}}`,
`JSON.parse` yields the expected document, `isOpenAPIContent` returns
true, and the Markdown `formatOpenAPISpec` produces for the parsed
document contains the literal substring `Total of **1** endpoints`. -/
theorem C7_openapi_detect_and_format :
    W2M.parseJson c7Input = some c7Doc ∧
    W2M.isOpenAPIContent c7Input = true ∧
    W2M.strIncludes (W2M.formatOpenAPISpec c7Doc) "Total of **1** endpoints" = true :=
  ⟨rfl, rfl, rfl⟩

